import Mathlib

/-!
Shallow embedding of the command-buffer subsystem of the unified-runtime
repository, covering the HIP adapter (`source/adapters/hip/command_buffer.cpp`)
and the OpenCL adapter (`source/adapters/opencl/command_buffer.cpp`).

Opaque native handles (graph nodes, devices, contexts, kernels, memory
objects) are modelled as natural numbers.  The native HIP graph is modelled
as the list of its nodes in insertion order; `hipGraphAddXNode` native calls
become appends to that list (the native allocation is assumed to succeed,
since resource-exhaustion paths are not the subject of any claim).
Machine integers (`size_t`, `uint32_t`) are modelled as `Nat`; the only
places overflow semantics matter (the power-of-two test `p & (p - 1)` at
`patternSize = 0`) agree between C unsigned wrap-around and truncated `Nat`
subtraction, as noted at the definition.  The buffer-fill entry point's
unconditional `offset % patternSize` is a C++ division by zero at
`patternSize = 0`, so that call is embedded with an `Option` result and
`none` at zero rather than with Lean's total `%`.
-/

set_option autoImplicit false

/-- Result codes of the unified-runtime API (`ur_result_t`), restricted to the
codes produced by the two command-buffer translation units. -/
inductive UrResult where
  | success
  | invalidOperation
  | invalidValue
  | invalidSize
  | invalidKernel
  | invalidWorkDimension
  | unsupportedFeature
  | invalidEnumeration
  | outOfHostMemory
  | outOfResources
  | adapterSpecific
  | unknownError
  deriving DecidableEq, Repr

namespace HIP

/-- Parameters of a HIP memset graph node (`hipMemsetParams`), as filled in by
`enqueueCommandBufferFillHelper`. -/
structure MemsetParams where
  dst : Nat
  elementSize : Nat
  height : Nat
  pitch : Nat
  value : Nat
  width : Nat
  deriving DecidableEq, Repr

/-- Parameters of a HIP kernel graph node (`hipKernelNodeParams`), as filled in
by `urCommandBufferAppendKernelLaunchExp`. -/
structure KernelNodeParams where
  func : Nat
  gridDim : Nat × Nat × Nat
  blockDim : Nat × Nat × Nat
  sharedMemBytes : Nat
  kernelParams : List Nat
  deriving DecidableEq, Repr

/-- The `hipMemcpyKind` argument of `hipGraphAddMemcpyNode1D`. -/
inductive MemcpyKind where
  | hostToHost
  | hostToDevice
  | deviceToHost
  | deviceToDevice
  deriving DecidableEq, Repr

/-- The kind and payload of one native HIP graph node inserted by the adapter. -/
inductive NodeKind where
  | memset (p : MemsetParams)
  | kernel (p : KernelNodeParams)
  | memcpy1D (dst src size : Nat) (kind : MemcpyKind)
  | empty
  deriving DecidableEq, Repr

/-- One native HIP graph node: its handle (`hipGraphNode_t`, modelled as the
index in creation order), its dependency list (the `pDependencies` array the
adapter passed to the native add-node call, as node handles) and its kind. -/
structure Node where
  id : Nat
  deps : List Nat
  kind : NodeKind
  deriving DecidableEq, Repr

/-- The HIP adapter command buffer (`ur_exp_command_buffer_handle_t_` of the
HIP adapter): the builder graph `HIPGraph` (list of nodes in insertion
order), the instantiated executable `HIPGraphExec` (a snapshot of the builder
graph taken by `hipGraphInstantiateWithFlags`, `none` before finalize), the
sync-point registry `SyncPoints` (association list from minted sync point to
native node handle), the mint counters, and the single reference count
`RefCount` (initialised to 1 by the constructor).  The counters
`nextSyncPoint` and `nextNodeId` model the strictly increasing minting of
sync points and of native node handles. -/
structure CommandBuffer where
  context : Nat
  device : Nat
  graph : List Node
  graphExec : Option (List Node)
  syncPoints : List (Nat × Nat)
  nextSyncPoint : Nat
  nextNodeId : Nat
  refCount : Nat
  deriving DecidableEq, Repr

/-- The constructor `ur_exp_command_buffer_handle_t_(hContext, hDevice)`:
null graph handles, reference count 1. -/
def mkCommandBuffer (context device : Nat) : CommandBuffer :=
  { context := context
    device := device
    graph := []
    graphExec := none
    syncPoints := []
    nextSyncPoint := 0
    nextNodeId := 0
    refCount := 1 }

/-- Modelled from the spec: `AddSyncPoint` is declared in the HIP adapter
header `command_buffer.hpp`, which is not among the sources; the spec states
that sync points are minted in strictly increasing order and map 1:1 to the
native graph node produced by the append call.  It registers the node under a
fresh sync point and returns that sync point. -/
def AddSyncPoint (cb : CommandBuffer) (node : Nat) : Nat × CommandBuffer :=
  (cb.nextSyncPoint,
    { cb with
      syncPoints := cb.syncPoints ++ [(cb.nextSyncPoint, node)]
      nextSyncPoint := cb.nextSyncPoint + 1 })

/-- A native `hipGraphAddXNode` call: allocates a fresh node handle and
appends the node, with the dependency list passed by the adapter, to the
builder graph.  Returns the new node handle. -/
def addNode (cb : CommandBuffer) (deps : List Nat) (kind : NodeKind) :
    Nat × CommandBuffer :=
  (cb.nextNodeId,
    { cb with
      graph := cb.graph ++ [{ id := cb.nextNodeId, deps := deps, kind := kind }]
      nextNodeId := cb.nextNodeId + 1 })

/-- The helper `getNodesFromSyncPoints`: for each sync point of the wait list
in order, look it up in the buffer's sync-point registry and collect the
associated native node; return `UR_RESULT_ERROR_INVALID_VALUE` at the first
sync point unknown to this buffer. -/
def getNodesFromSyncPoints (cb : CommandBuffer) :
    List Nat → Except UrResult (List Nat)
  | [] => .ok []
  | sp :: rest =>
    match cb.syncPoints.lookup sp with
    | some node =>
      match getNodesFromSyncPoints cb rest with
      | .ok nodes => .ok (node :: nodes)
      | .error e => .error e
    | none => .error .invalidValue

/-- The read `*static_cast<const uint32_t *>(Pattern)`: the first four bytes
of the pattern assembled little-endian.  The pattern is modelled as its list
of bytes. -/
def patternValue32 (pattern : List Nat) : Nat :=
  pattern.getD 0 0 + 256 * (pattern.getD 1 0 +
    256 * (pattern.getD 2 0 + 256 * pattern.getD 3 0))

/-- The memset node built by one iteration of the 1-byte decomposition loop of
`enqueueCommandBufferFillHelper` at byte offset `step`: destination offset by
`step`, element size 1, the single pattern byte at `step` as value, pitch equal
to the pattern size and height `Size / NumberOfSteps`. -/
def stepNode (dstPtr : Nat) (pattern : List Nat) (numberOfSteps size : Nat)
    (id prev step : Nat) : Node :=
  { id := id
    deps := [prev]
    kind := .memset
      { dst := dstPtr + step
        elementSize := 1
        height := size / numberOfSteps
        pitch := numberOfSteps
        value := pattern.getD step 0
        width := 1 } }

/-- The 1-byte decomposition loop of `enqueueCommandBufferFillHelper`
(`for (auto Step = 4u; Step < NumberOfSteps; ++Step)`): each iteration adds a
single-byte memset node whose dependency list is exactly the node created by
the previous iteration (the loop clears `HIPNodesList` and re-inserts only the
node just created), registers it under a fresh sync point, and overwrites the
returned sync point with that fresh one.  Arguments `prev` and `lastSp` carry
the previously created node and the sync point written so far. -/
def fillSteps (dstPtr : Nat) (pattern : List Nat) (numberOfSteps size : Nat) :
    CommandBuffer → Nat → Nat → List Nat → CommandBuffer × Nat
  | cb, _, lastSp, [] => (cb, lastSp)
  | cb, prev, _, step :: rest =>
    let n := addNode cb [prev]
      (stepNode dstPtr pattern numberOfSteps size cb.nextNodeId prev step).kind
    let s := AddSyncPoint n.2 n.1
    fillSteps dstPtr pattern numberOfSteps size s.2 n.1 s.1 rest

/-- Characterization of the node chain the decomposition loop emits, used to
state its specification: starting from fresh node handle `startId` with the
previously created node `prev`, one `stepNode` per remaining step, each
depending exactly on its predecessor in the chain. -/
def chainNodes (dstPtr : Nat) (pattern : List Nat) (numberOfSteps size : Nat) :
    Nat → Nat → List Nat → List Node
  | _, _, [] => []
  | startId, prev, step :: rest =>
    stepNode dstPtr pattern numberOfSteps size startId prev step ::
      chainNodes dstPtr pattern numberOfSteps size (startId + 1) startId rest

/-- Characterization of the sync-point registrations the decomposition loop
performs: `n` consecutive sync points paired with `n` consecutive node
handles. -/
def mintPairs : Nat → Nat → Nat → List (Nat × Nat)
  | _, _, 0 => []
  | sp, nid, n + 1 => (sp, nid) :: mintPairs (sp + 1) (nid + 1) n

/-- Default node used as the fallback of `List.getD` in specifications. -/
def nodeD : Node :=
  { id := 0, deps := [], kind := .empty }

/-- The nodes an operation appended to the builder graph: the final graph
without the prefix that was already present before the call. -/
def newNodes (before after : CommandBuffer) : List Node :=
  after.graph.drop before.graph.length

/-- The helper `enqueueCommandBufferFillHelper`: resolves the wait list (an
unknown sync point aborts the operation with `UR_RESULT_ERROR_INVALID_VALUE`
before any node is created — the failure propagation of `UR_CALL`, whose
definition lives outside these sources, is modelled from the spec statement
that the first failure aborts the remaining steps and leaves the buffer
unchanged).  For pattern sizes 1, 2 and 4 it creates a single native memset
node with that element size; otherwise it creates one leading 4-byte-element
node followed by one single-byte node per pattern byte from offset 4 up to
`NumberOfSteps = PatternSize`, each registered under a fresh sync point, the
last minted sync point being the one returned. -/
def enqueueCommandBufferFillHelper (cb : CommandBuffer) (dstPtr : Nat)
    (pattern : List Nat) (patternSize size : Nat) (waitList : List Nat) :
    UrResult × CommandBuffer × Option Nat :=
  match getNodesFromSyncPoints cb waitList with
  | .error e => (e, cb, none)
  | .ok depsList =>
    if patternSize = 1 ∨ patternSize = 2 ∨ patternSize = 4 then
      let n := addNode cb depsList (.memset
        { dst := dstPtr
          elementSize := patternSize
          height := size / patternSize
          pitch := patternSize
          value := patternValue32 pattern
          width := 1 })
      let s := AddSyncPoint n.2 n.1
      (.success, s.2, some s.1)
    else
      let numberOfSteps := patternSize
      let first := addNode cb depsList (.memset
        { dst := dstPtr
          elementSize := 4
          height := size / numberOfSteps
          pitch := numberOfSteps
          value := patternValue32 pattern
          width := 1 })
      let sFirst := AddSyncPoint first.2 first.1
      let looped := fillSteps dstPtr pattern numberOfSteps size sFirst.2
        first.1 sFirst.1 (List.range' 4 (numberOfSteps - 4))
      (.success, looped.1, some looped.2)

/-- A UR memory buffer object, reduced to what the HIP command-buffer
translation unit reads from it: its device base pointer and its allocation
size (`BufferMem::getPtrWithOffset` and `BufferMem::getSize`). -/
structure BufferMem where
  ptr : Nat
  size : Nat
  deriving DecidableEq, Repr

/-- `urCommandBufferAppendMemBufferFillExp` of the HIP adapter.  The source
computes `offset % patternSize` and `size % patternSize` unconditionally,
before any validation of `patternSize`; at `patternSize = 0` this divides by
zero — undefined behavior in C++ — so the call is modelled as `none` there
(the `UR_ASSERT` rejecting a zero pattern size is never reached).  For a
non-zero pattern size it validates that offset or size is a multiple of the
pattern size, that the pattern pointer is non-null and that the pattern size
is a positive power of two (the source test
`(patternSize & (patternSize - 1)) == 0 && patternSize > 0`), returning
`UR_RESULT_ERROR_INVALID_SIZE` otherwise, and then delegates to the fill
helper at the offset device pointer.  A null pattern pointer is modelled as
`none`. -/
def urCommandBufferAppendMemBufferFillExp (cb : CommandBuffer)
    (hBuffer : BufferMem) (pPattern : Option (List Nat))
    (patternSize offset size : Nat) (waitList : List Nat) :
    Option (UrResult × CommandBuffer × Option Nat) :=
  if patternSize = 0 then none
  else if (offset % patternSize = 0 ∨ size % patternSize = 0) ∧
      pPattern.isSome ∧ ((patternSize &&& (patternSize - 1)) = 0 ∧ 0 < patternSize) then
    some (enqueueCommandBufferFillHelper cb (hBuffer.ptr + offset)
      (pPattern.getD []) patternSize size waitList)
  else
    some (.invalidSize, cb, none)

/-- `urCommandBufferAppendUSMFillExp` of the HIP adapter: validates that the
pattern pointer is non-null and the pattern size is a positive power of two,
returning `UR_RESULT_ERROR_INVALID_SIZE` otherwise, then delegates to the
fill helper at the given USM pointer.  Unlike the buffer fill it computes no
modulo, so it is well defined (and rejecting) at `patternSize = 0`. -/
def urCommandBufferAppendUSMFillExp (cb : CommandBuffer) (pPtr : Nat)
    (pPattern : Option (List Nat)) (patternSize size : Nat)
    (waitList : List Nat) : UrResult × CommandBuffer × Option Nat :=
  if pPattern.isSome ∧ ((patternSize &&& (patternSize - 1)) = 0 ∧ 0 < patternSize) then
    enqueueCommandBufferFillHelper cb pPtr (pPattern.getD []) patternSize size
      waitList
  else
    (.invalidSize, cb, none)

/-- A UR kernel object, reduced to what the HIP command-buffer translation
unit reads from it: owning context, native function handle, accumulated local
memory size and argument-pointer table. -/
structure Kernel where
  context : Nat
  func : Nat
  localSize : Nat
  argIndices : List Nat
  deriving DecidableEq, Repr

/-- Modelled from the spec: `setKernelParams` is defined in
`source/adapters/hip/enqueue.cpp`, which is not among the sources; per the
spec it derives the block/grid decomposition of the ND-range (a default of 64
threads per block unless the caller provided a local size) and succeeds for
an in-range work configuration.  No claim depends on the decomposition it
computes. -/
def setKernelParams (workDim : Nat) (globalWorkOffset globalWorkSize localWorkSize : List Nat) :
    UrResult × (Nat × Nat × Nat) × (Nat × Nat × Nat) :=
  let _ := globalWorkOffset
  let tb0 := if localWorkSize = [] then 64 else localWorkSize.getD 0 1
  let tb1 := if localWorkSize = [] then 1 else
    (if 2 ≤ workDim then localWorkSize.getD 1 1 else 1)
  let tb2 := if localWorkSize = [] then 1 else
    (if 3 ≤ workDim then localWorkSize.getD 2 1 else 1)
  let g0 := (globalWorkSize.getD 0 1 + tb0 - 1) / tb0
  let g1 := if 2 ≤ workDim then (globalWorkSize.getD 1 1 + tb1 - 1) / tb1 else 1
  let g2 := if 3 ≤ workDim then (globalWorkSize.getD 2 1 + tb2 - 1) / tb2 else 1
  (.success, (tb0, tb1, tb2), (g0, g1, g2))

/-- `urCommandBufferAppendKernelLaunchExp` of the HIP adapter: asserts the
kernel belongs to the buffer's context (`UR_RESULT_ERROR_INVALID_KERNEL`) and
`0 < workDim < 4` (`UR_RESULT_ERROR_INVALID_WORK_DIMENSION`), resolves the
wait list, and if `*pGlobalWorkSize == 0` adds an empty native node with the
resolved dependencies and mints a sync point for it; otherwise it computes the
launch decomposition and adds a kernel node carrying the kernel's function
handle, argument table and local memory size, minting a sync point for it. -/
def urCommandBufferAppendKernelLaunchExp (cb : CommandBuffer) (hKernel : Kernel)
    (workDim : Nat) (globalWorkOffset globalWorkSize localWorkSize : List Nat)
    (waitList : List Nat) : UrResult × CommandBuffer × Option Nat :=
  if cb.context ≠ hKernel.context then (.invalidKernel, cb, none)
  else if workDim = 0 then (.invalidWorkDimension, cb, none)
  else if 3 < workDim then (.invalidWorkDimension, cb, none)
  else
    match getNodesFromSyncPoints cb waitList with
    | .error e => (e, cb, none)
    | .ok depsList =>
      if globalWorkSize.getD 0 0 = 0 then
        let n := addNode cb depsList .empty
        let s := AddSyncPoint n.2 n.1
        (.success, s.2, some s.1)
      else
        let params :=
          setKernelParams workDim globalWorkOffset globalWorkSize localWorkSize
        if params.1 ≠ .success then (params.1, cb, none)
        else
          let n := addNode cb depsList (.kernel
            { func := hKernel.func
              gridDim := params.2.2
              blockDim := params.2.1
              sharedMemBytes := hKernel.localSize
              kernelParams := hKernel.argIndices })
          let s := AddSyncPoint n.2 n.1
          (.success, s.2, some s.1)

/-- `urCommandBufferAppendUSMMemcpyExp` of the HIP adapter: resolves the wait
list, then adds a 1D memcpy node (`hipMemcpyHostToHost`) and mints a sync
point for it. -/
def urCommandBufferAppendUSMMemcpyExp (cb : CommandBuffer) (pDst pSrc size : Nat)
    (waitList : List Nat) : UrResult × CommandBuffer × Option Nat :=
  match getNodesFromSyncPoints cb waitList with
  | .error e => (e, cb, none)
  | .ok depsList =>
    let n := addNode cb depsList (.memcpy1D pDst pSrc size .hostToHost)
    let s := AddSyncPoint n.2 n.1
    (.success, s.2, some s.1)

/-- `urCommandBufferAppendMemBufferCopyExp` of the HIP adapter: asserts both
ranges fit their allocations (`UR_RESULT_ERROR_INVALID_SIZE`), resolves the
wait list, then adds a device-to-device 1D memcpy node between the offset
device pointers and mints a sync point for it. -/
def urCommandBufferAppendMemBufferCopyExp (cb : CommandBuffer)
    (hSrcMem hDstMem : BufferMem) (srcOffset dstOffset size : Nat)
    (waitList : List Nat) : UrResult × CommandBuffer × Option Nat :=
  if ¬ (size + dstOffset ≤ hDstMem.size) then (.invalidSize, cb, none)
  else if ¬ (size + srcOffset ≤ hSrcMem.size) then (.invalidSize, cb, none)
  else
    match getNodesFromSyncPoints cb waitList with
    | .error e => (e, cb, none)
    | .ok depsList =>
      let n := addNode cb depsList
        (.memcpy1D (hDstMem.ptr + dstOffset) (hSrcMem.ptr + srcOffset) size
          .deviceToDevice)
      let s := AddSyncPoint n.2 n.1
      (.success, s.2, some s.1)

/-- `urCommandBufferAppendMemBufferWriteExp` of the HIP adapter: resolves the
wait list, then adds a host-to-device 1D memcpy node to the offset device
pointer and mints a sync point for it. -/
def urCommandBufferAppendMemBufferWriteExp (cb : CommandBuffer)
    (hBuffer : BufferMem) (offset size pSrc : Nat) (waitList : List Nat) :
    UrResult × CommandBuffer × Option Nat :=
  match getNodesFromSyncPoints cb waitList with
  | .error e => (e, cb, none)
  | .ok depsList =>
    let n := addNode cb depsList
      (.memcpy1D (hBuffer.ptr + offset) pSrc size .hostToDevice)
    let s := AddSyncPoint n.2 n.1
    (.success, s.2, some s.1)

/-- `urCommandBufferAppendMemBufferReadExp` of the HIP adapter: resolves the
wait list, then adds a device-to-host 1D memcpy node from the offset device
pointer and mints a sync point for it. -/
def urCommandBufferAppendMemBufferReadExp (cb : CommandBuffer)
    (hBuffer : BufferMem) (offset size pDst : Nat) (waitList : List Nat) :
    UrResult × CommandBuffer × Option Nat :=
  match getNodesFromSyncPoints cb waitList with
  | .error e => (e, cb, none)
  | .ok depsList =>
    let n := addNode cb depsList
      (.memcpy1D pDst (hBuffer.ptr + offset) size .deviceToHost)
    let s := AddSyncPoint n.2 n.1
    (.success, s.2, some s.1)

/-- `urCommandBufferAppendUSMPrefetchExp` of the HIP adapter: resolves the
wait list, adds an inert empty node with the resolved dependencies, mints a
sync point for it, and reports the degrade-to-no-op policy through
`UR_RESULT_ERROR_ADAPTER_SPECIFIC` with a warning message. -/
def urCommandBufferAppendUSMPrefetchExp (cb : CommandBuffer)
    (waitList : List Nat) : UrResult × CommandBuffer × Option Nat :=
  match getNodesFromSyncPoints cb waitList with
  | .error e => (e, cb, none)
  | .ok depsList =>
    let n := addNode cb depsList .empty
    let s := AddSyncPoint n.2 n.1
    (.adapterSpecific, s.2, some s.1)

/-- `urCommandBufferAppendUSMAdviseExp` of the HIP adapter: resolves the wait
list, adds an inert empty node with the resolved dependencies, mints a sync
point for it, and reports the degrade-to-no-op policy through
`UR_RESULT_ERROR_ADAPTER_SPECIFIC` with a warning message. -/
def urCommandBufferAppendUSMAdviseExp (cb : CommandBuffer)
    (waitList : List Nat) : UrResult × CommandBuffer × Option Nat :=
  match getNodesFromSyncPoints cb waitList with
  | .error e => (e, cb, none)
  | .ok depsList =>
    let n := addNode cb depsList .empty
    let s := AddSyncPoint n.2 n.1
    (.adapterSpecific, s.2, some s.1)

/-- The `ur_exp_command_buffer_desc_t` descriptor. -/
structure Descriptor where
  isUpdatable : Bool
  deriving DecidableEq, Repr

/-- Modelled from the spec: the HIP adapter's device-info query for
command-buffer update support lives in `source/adapters/hip/device.cpp`,
which is not among the sources; the HIP adapter implements no
`urCommandBufferUpdateKernelLaunchExp` entry point (none exists in its
command-buffer translation unit), so per the spec's capability model a HIP
device does not report command-buffer update support. -/
def hipDeviceSupportsUpdate : Bool := false

/-- `urCommandBufferCreateExp` of the HIP adapter: the descriptor is ignored
(`(void)pCommandBufferDesc`); the buffer is allocated with reference count 1
and an empty native graph is created for it.  Allocation is assumed to
succeed (the `bad_alloc` and `hipGraphCreate` failure paths are not the
subject of any claim). -/
def urCommandBufferCreateExp (hContext hDevice : Nat)
    (pCommandBufferDesc : Option Descriptor) :
    UrResult × Option CommandBuffer :=
  let _ := pCommandBufferDesc
  (.success, some (mkCommandBuffer hContext hDevice))

/-- `urCommandBufferRetainExp` of the HIP adapter: increments the single
reference count and returns success. -/
def urCommandBufferRetainExp (cb : CommandBuffer) : UrResult × CommandBuffer :=
  (.success, { cb with refCount := cb.refCount + 1 })

/-- `urCommandBufferReleaseExp` of the HIP adapter: decrements the reference
count and deletes the buffer (modelled as `none`) when it reaches zero. -/
def urCommandBufferReleaseExp (cb : CommandBuffer) :
    UrResult × Option CommandBuffer :=
  if cb.refCount - 1 ≠ 0 then
    (.success, some { cb with refCount := cb.refCount - 1 })
  else
    (.success, none)

/-- `urCommandBufferFinalizeExp` of the HIP adapter: instantiates the builder
graph into the executable (`hipGraphInstantiateWithFlags`), modelled as
snapshotting the current node list.  No finalized flag exists on the HIP
buffer and no recording-state check is made. -/
def urCommandBufferFinalizeExp (cb : CommandBuffer) : UrResult × CommandBuffer :=
  (.success, { cb with graphExec := some cb.graph })

/-- A UR queue of the HIP adapter, reduced to what the command-buffer
translation unit uses: its device and its log of launched executable graphs
(each `hipGraphLaunch` appends the launched executable). -/
structure Queue where
  device : Nat
  execLog : List (List Node)
  deriving DecidableEq, Repr

/-- `urCommandBufferEnqueueExp` of the HIP adapter: picks a compute stream of
the queue, waits on the external event wait list, optionally creates a native
event bracketing the launch, and launches `HIPGraphExec` on the stream.  The
command buffer itself is only read.  Launching a never-finalized buffer hands
the null executable to `hipGraphLaunch`, whose native failure is modelled as
`UR_RESULT_ERROR_INVALID_VALUE`. -/
def urCommandBufferEnqueueExp (cb : CommandBuffer) (hQueue : Queue)
    (eventWaitList : List Nat) (wantEvent : Bool) :
    UrResult × CommandBuffer × Queue × Option Nat :=
  let _ := eventWaitList
  match cb.graphExec with
  | none => (.invalidValue, cb, hQueue, none)
  | some g =>
    (.success, cb, { hQueue with execLog := hQueue.execLog ++ [g] },
      if wantEvent then some hQueue.execLog.length else none)

end HIP

namespace CL

/-- Availability of the `cl_khr_command_buffer` extension entry points looked
up through `getExtFuncFromContext`; an unavailable entry point makes the
corresponding adapter function return `UR_RESULT_ERROR_INVALID_OPERATION`. -/
structure Env where
  createAvail : Bool
  finalizeAvail : Bool
  ndrangeAvail : Bool
  enqueueAvail : Bool
  updateAvail : Bool
  deriving DecidableEq, Repr

/-- The native recorded state of one ND-range command inside the native
OpenCL command buffer: the state `clCommandNDRangeKernelKHR` records and
`clUpdateMutableCommandsKHR` later mutates. -/
structure DispatchRecord where
  kernel : Nat
  workDim : Nat
  globalWorkOffset : List Nat
  globalWorkSize : List Nat
  localWorkSize : List Nat
  args : List (Nat × Nat × Nat)
  svmArgs : List (Nat × Nat)
  execInfos : List Nat
  deriving DecidableEq, Repr

/-- The native OpenCL command buffer object behind `CLCommandBuffer`: its
recorded ND-range commands and whether `clFinalizeCommandBufferKHR` has been
called on it.  Modelled from the `cl_khr_command_buffer` contract the adapter
relies on: recording into a finalized native buffer fails with
`CL_INVALID_OPERATION`, which `CL_RETURN_ON_FAILURE` surfaces as
`UR_RESULT_ERROR_INVALID_OPERATION`. -/
structure NativeBuffer where
  records : List DispatchRecord
  finalized : Bool
  deriving DecidableEq, Repr

/-- Reference-count core of the OpenCL adapter's
`ur_exp_command_buffer_handle_t_`: external and internal counts, the
`IsUpdatable` and `IsFinalized` flags, and liveness (`alive = false` models
`delete`).  Modelled from the spec where the header is missing: the
constructor starts both counts at 1, `decrementInternalReferenceCount`
returns the decremented value, and the object is deleted exactly when the
internal count reaches zero. -/
structure BufCore where
  extCount : Nat
  intCount : Nat
  alive : Bool
  isUpdatable : Bool
  isFinalized : Bool
  deriving DecidableEq, Repr

/-- The OpenCL adapter's `ur_exp_command_buffer_command_handle_t_`: external
and internal counts (both starting at 1), liveness, the work dimensionality
recorded at append time (`WorkDim`), and the native mutable command it wraps
(`CLMutableCommand`), modelled as the index of the dispatch record in the
native buffer. -/
structure Command where
  extCount : Nat
  intCount : Nat
  alive : Bool
  workDim : Nat
  nativeIdx : Nat
  deriving DecidableEq, Repr

/-- The OpenCL adapter command buffer: reference-count core, the
`CommandHandles` list in registration order, and the native OpenCL command
buffer it owns. -/
structure CommandBuffer where
  core : BufCore
  commands : List Command
  native : NativeBuffer
  deriving DecidableEq, Repr

/-- The file-local helper `commandBufferReleaseInternal`: decrement the
internal count; if the decremented value is non-zero, keep the object,
otherwise delete it. -/
def commandBufferReleaseInternal (b : BufCore) : BufCore :=
  if b.intCount - 1 ≠ 0 then { b with intCount := b.intCount - 1 }
  else { b with intCount := b.intCount - 1, alive := false }

/-- The file-local helper `commandHandleReleaseInternal`: decrement the
command's internal count; if the decremented value is non-zero, keep the
command; otherwise perform an internal release on the parent command buffer
and delete the command. -/
def commandHandleReleaseInternal (c : Command) (b : BufCore) :
    Command × BufCore :=
  if c.intCount - 1 ≠ 0 then ({ c with intCount := c.intCount - 1 }, b)
  else ({ c with intCount := c.intCount - 1, alive := false },
    commandBufferReleaseInternal b)

/-- The loop of `urCommandBufferReleaseExp` over
`hCommandBuffer->CommandHandles`: one `commandHandleReleaseInternal` per
registered command handle, in registration order, threading the buffer core
through the compensating parent releases. -/
def releaseAll : List Command → BufCore → List Command × BufCore
  | [], b => ([], b)
  | c :: cs, b =>
    let step := commandHandleReleaseInternal c b
    let rest := releaseAll cs step.2
    (step.1 :: rest.1, rest.2)

/-- `urCommandBufferCreateExp` of the OpenCL adapter: creates an internal
queue (assumed to succeed), requires the `clCreateCommandBufferKHR` entry
point (`UR_RESULT_ERROR_INVALID_OPERATION` otherwise), reads `isUpdatable`
from the descriptor (`false` when the descriptor is null), queries the device
for mutable-dispatch support and fails with
`UR_RESULT_ERROR_INVALID_OPERATION` when update is requested but
unsupported; on success the buffer starts with both reference counts 1, not
finalized, and an empty native command buffer. -/
def urCommandBufferCreateExp (env : Env) (pCommandBufferDesc : Option Bool)
    (deviceSupportsUpdate : Bool) : UrResult × Option CommandBuffer :=
  if ¬ env.createAvail then (.invalidOperation, none)
  else
    let isUpdatable := pCommandBufferDesc.getD false
    if isUpdatable ∧ ¬ deviceSupportsUpdate then (.invalidOperation, none)
    else
      (.success, some
        { core :=
          { extCount := 1
            intCount := 1
            alive := true
            isUpdatable := isUpdatable
            isFinalized := false }
          commands := []
          native := { records := [], finalized := false } })

/-- `urCommandBufferRetainExp` of the OpenCL adapter: increments the internal
and the external reference count and returns success unconditionally. -/
def urCommandBufferRetainExp (cb : CommandBuffer) : UrResult × CommandBuffer :=
  (.success,
    { cb with core :=
      { cb.core with
        intCount := cb.core.intCount + 1
        extCount := cb.core.extCount + 1 } })

/-- `urCommandBufferReleaseExp` of the OpenCL adapter: decrements the external
count; when it reaches zero, performs an internal release on every registered
command handle, and in every case finishes with an internal release of the
buffer itself. -/
def urCommandBufferReleaseExp (cb : CommandBuffer) : UrResult × CommandBuffer :=
  let core1 := { cb.core with extCount := cb.core.extCount - 1 }
  if core1.extCount = 0 then
    let cascaded := releaseAll cb.commands core1
    (.success,
      { cb with
        commands := cascaded.1
        core := commandBufferReleaseInternal cascaded.2 })
  else
    (.success, { cb with core := commandBufferReleaseInternal core1 })

/-- `urCommandBufferRetainCommandExp` of the OpenCL adapter: increments the
command's external and internal counts and returns success. -/
def urCommandBufferRetainCommandExp (c : Command) : UrResult × Command :=
  (.success, { c with extCount := c.extCount + 1, intCount := c.intCount + 1 })

/-- `urCommandBufferReleaseCommandExp` of the OpenCL adapter: decrements the
command's external count and then performs an internal release on the
command (whose compensating parent release is threaded through the buffer
core). -/
def urCommandBufferReleaseCommandExp (c : Command) (b : BufCore) :
    UrResult × Command × BufCore :=
  let step := commandHandleReleaseInternal { c with extCount := c.extCount - 1 } b
  (.success, step)

/-- `urCommandBufferFinalizeExp` of the OpenCL adapter: requires the
`clFinalizeCommandBufferKHR` entry point, finalizes the native buffer (the
native call fails on an already finalized buffer, per the
`cl_khr_command_buffer` contract modelled in `NativeBuffer`), and on success
sets `IsFinalized`. -/
def urCommandBufferFinalizeExp (env : Env) (cb : CommandBuffer) :
    UrResult × CommandBuffer :=
  if ¬ env.finalizeAvail then (.invalidOperation, cb)
  else if cb.native.finalized then (.invalidOperation, cb)
  else
    (.success,
      { cb with
        native := { cb.native with finalized := true }
        core := { cb.core with isFinalized := true } })

/-- `urCommandBufferAppendKernelLaunchExp` of the OpenCL adapter: requires the
`clCommandNDRangeKernelKHR` entry point, then records the ND-range into the
native buffer (the native call fails with `CL_INVALID_OPERATION` on a
finalized native buffer, leaving it unchanged); on success a command handle
is constructed with the appended `workDim`, registered in `CommandHandles`,
and the parent's internal count is bumped (the handle constructor is modelled
from the spec, its header being missing).  The adapter consults no
`IsFinalized` flag of its own. -/
def urCommandBufferAppendKernelLaunchExp (env : Env) (cb : CommandBuffer)
    (hKernel workDim : Nat) (globalWorkOffset globalWorkSize localWorkSize : List Nat) :
    UrResult × CommandBuffer × Option Nat :=
  if ¬ env.ndrangeAvail then (.invalidOperation, cb, none)
  else if cb.native.finalized then (.invalidOperation, cb, none)
  else
    let record : DispatchRecord :=
      { kernel := hKernel
        workDim := workDim
        globalWorkOffset := globalWorkOffset
        globalWorkSize := globalWorkSize
        localWorkSize := localWorkSize
        args := []
        svmArgs := []
        execInfos := [] }
    let handle : Command :=
      { extCount := 1
        intCount := 1
        alive := true
        workDim := workDim
        nativeIdx := cb.native.records.length }
    (.success,
      { core := { cb.core with intCount := cb.core.intCount + 1 }
        commands := cb.commands ++ [handle]
        native := { cb.native with records := cb.native.records ++ [record] } },
      some cb.commands.length)

/-- A queue of the OpenCL adapter as used by `urCommandBufferEnqueueExp`: its
log of enqueued native command buffers. -/
structure Queue where
  execLog : List (List DispatchRecord)
  deriving DecidableEq, Repr

/-- `urCommandBufferEnqueueExp` of the OpenCL adapter: requires the
`clEnqueueCommandBufferKHR` entry point and enqueues the native command
buffer on the queue; the command buffer itself is only read. -/
def urCommandBufferEnqueueExp (env : Env) (cb : CommandBuffer) (hQueue : Queue)
    (eventWaitList : List Nat) : UrResult × CommandBuffer × Queue :=
  let _ := eventWaitList
  if ¬ env.enqueueAvail then (.invalidOperation, cb, hQueue)
  else
    (.success, cb, { execLog := hQueue.execLog ++ [cb.native.records] })

/-- One entry of `pNewExecInfoList` in
`urCommandBufferUpdateKernelLaunchExp`, reduced to the property switch the
source performs on `propName`. -/
inductive ExecInfoProp where
  | usmIndirectAccess
  | usmPtrs (propSize value : Nat)
  | cacheConfig
  | unknown
  deriving DecidableEq, Repr

/-- The exec-info translation loop of `urCommandBufferUpdateKernelLaunchExp`:
`USM_INDIRECT_ACCESS` expands to the three Intel indirect-access infos,
`USM_PTRS` to one `CL_KERNEL_EXEC_INFO_USM_PTRS_INTEL` entry, `CACHE_CONFIG`
to nothing, and any other property aborts with
`UR_RESULT_ERROR_INVALID_ENUMERATION`.  The Intel property names are encoded
as the tags 1, 2, 3 and 4. -/
def buildExecInfos : List ExecInfoProp → Except UrResult (List Nat)
  | [] => .ok []
  | .usmIndirectAccess :: rest =>
    match buildExecInfos rest with
    | .ok infos => .ok (1 :: 2 :: 3 :: infos)
    | .error e => .error e
  | .usmPtrs _ _ :: rest =>
    match buildExecInfos rest with
    | .ok infos => .ok (4 :: infos)
    | .error e => .error e
  | .cacheConfig :: rest => buildExecInfos rest
  | .unknown :: _ => .error .invalidEnumeration

/-- The sparse update request `ur_exp_command_buffer_update_kernel_launch_desc_t`,
reduced to the fields the OpenCL adapter reads: exec infos, pointer (SVM)
arguments, memory-object arguments, value arguments, the new work
dimensionality (0 meaning unspecified), and the optional new ND-range
components (null pointers modelled as `none`). -/
structure UpdateDesc where
  execInfos : List ExecInfoProp
  pointerArgs : List (Nat × Nat)
  memObjArgs : List (Nat × Nat)
  valueArgs : List (Nat × Nat × Nat)
  newWorkDim : Nat
  newGlobalWorkOffset : Option (List Nat)
  newGlobalWorkSize : Option (List Nat)
  newLocalWorkSize : Option (List Nat)
  deriving DecidableEq, Repr

/-- Replacement of one argument slot inside the native dispatch record: the
mutable-dispatch update overwrites the argument at the given index, keeping
the other recorded arguments. -/
def upsertArg (args : List (Nat × Nat × Nat)) (a : Nat × Nat × Nat) :
    List (Nat × Nat × Nat) :=
  if args.any (fun x => x.1 = a.1) then
    args.map (fun x => if x.1 = a.1 then a else x)
  else args ++ [a]

/-- Replacement of one SVM argument slot inside the native dispatch record. -/
def upsertSvmArg (args : List (Nat × Nat)) (a : Nat × Nat) : List (Nat × Nat) :=
  if args.any (fun x => x.1 = a.1) then
    args.map (fun x => if x.1 = a.1 then a else x)
  else args ++ [a]

/-- The native `clUpdateMutableCommandsKHR` call applied to one dispatch
record: overwrites the listed plain/memobj arguments and SVM arguments,
appends the exec infos, and replaces whichever ND-range components the
mutable-dispatch config carries. -/
def applyDispatchUpdate (r : DispatchRecord) (clArgs : List (Nat × Nat × Nat))
    (clSvmArgs : List (Nat × Nat)) (clExecInfos : List Nat)
    (gwo gws lws : Option (List Nat)) : DispatchRecord :=
  { r with
    args := clArgs.foldl upsertArg r.args
    svmArgs := clSvmArgs.foldl upsertSvmArg r.svmArgs
    execInfos := r.execInfos ++ clExecInfos
    globalWorkOffset := gwo.getD r.globalWorkOffset
    globalWorkSize := gws.getD r.globalWorkSize
    localWorkSize := lws.getD r.localWorkSize }

/-- `urCommandBufferUpdateKernelLaunchExp` of the OpenCL adapter, acting on
the command handle at index `i` of the buffer's `CommandHandles`: requires
the `clUpdateMutableCommandsKHR` entry point and that the parent buffer is
both finalized and updatable (`UR_RESULT_ERROR_INVALID_OPERATION`
otherwise); translates the exec infos (an unknown property aborting with
`UR_RESULT_ERROR_INVALID_ENUMERATION`); collects the SVM, memory-object
(argument size `sizeof(cl_mem)`, encoded 8) and value arguments; rejects a
non-zero new work dimensionality different from the recorded `WorkDim` with
`UR_RESULT_ERROR_UNSUPPORTED_FEATURE`; and finally stages all changes into
one native mutate call on the command's dispatch record, each supplied
ND-range component truncated to `WorkDim` entries. -/
def urCommandBufferUpdateKernelLaunchExp (env : Env) (cb : CommandBuffer)
    (i : Nat) (d : UpdateDesc) : UrResult × CommandBuffer :=
  if ¬ env.updateAvail then (.invalidOperation, cb)
  else if ¬ cb.core.isFinalized ∨ ¬ cb.core.isUpdatable then
    (.invalidOperation, cb)
  else
    match buildExecInfos d.execInfos with
    | .error e => (e, cb)
    | .ok clExecInfos =>
      let clSvmArgs := d.pointerArgs
      let clArgs := d.memObjArgs.map (fun a => (a.1, 8, a.2)) ++ d.valueArgs
      match cb.commands.get? i with
      | none => (.invalidValue, cb)
      | some c =>
        if d.newWorkDim ≠ 0 ∧ d.newWorkDim ≠ c.workDim then
          (.unsupportedFeature, cb)
        else
          let gwo := d.newGlobalWorkOffset.map (fun l => l.take c.workDim)
          let gws := d.newGlobalWorkSize.map (fun l => l.take c.workDim)
          let lws := d.newLocalWorkSize.map (fun l => l.take c.workDim)
          match cb.native.records.get? c.nativeIdx with
          | none => (.invalidValue, cb)
          | some r =>
            let updated :=
              applyDispatchUpdate r clArgs clSvmArgs clExecInfos gwo gws lws
            (.success,
              { cb with native :=
                { cb.native with
                  records := cb.native.records.set c.nativeIdx updated } })

end CL

/-! Helper lemmas about the OpenCL reference-count cascade. -/

theorem CL.commandBufferReleaseInternal_extCount (b : CL.BufCore) :
    (CL.commandBufferReleaseInternal b).extCount = b.extCount := by
  unfold CL.commandBufferReleaseInternal
  split <;> rfl

theorem CL.releaseAll_fst (cmds : List CL.Command) :
    ∀ b : CL.BufCore,
      (CL.releaseAll cmds b).1 = cmds.map (fun c =>
        if c.intCount - 1 ≠ 0 then { c with intCount := c.intCount - 1 }
        else { c with intCount := c.intCount - 1, alive := false }) := by
  induction cmds with
  | nil => intro b; rfl
  | cons c cs ih =>
    intro b
    by_cases h : c.intCount - 1 = 0
    · simp [CL.releaseAll, CL.commandHandleReleaseInternal, h, ih]
    · simp [CL.releaseAll, CL.commandHandleReleaseInternal, h, ih]

theorem CL.releaseAll_extCount (cmds : List CL.Command) :
    ∀ b : CL.BufCore, (CL.releaseAll cmds b).2.extCount = b.extCount := by
  induction cmds with
  | nil => intro b; rfl
  | cons c cs ih =>
    intro b
    by_cases h : c.intCount - 1 = 0
    · simp [CL.releaseAll, CL.commandHandleReleaseInternal, h, ih,
        CL.commandBufferReleaseInternal_extCount]
    · simp [CL.releaseAll, CL.commandHandleReleaseInternal, h, ih]

/-- C1: for the OpenCL adapter command buffer, (a) retain increments both the
external and the internal reference count and returns success
unconditionally; (b) release returns success and decrements the external
count; (c) when the external count reaches zero, release performs exactly one
internal release on every registered command handle, in order (decrementing
each handle's internal count and deleting the handles this brings to zero)
before the buffer's own internal release; (d) an internal release of a live
buffer deletes it exactly when its internal count reaches zero; (e) an
internal release of a command handle whose internal count reaches zero
deletes the handle and performs one compensating internal release on the
parent buffer, and (f) performs none when the handle survives. -/
theorem claim_C1_dual_refcount_lifecycle :
    (∀ cb : CL.CommandBuffer,
      CL.urCommandBufferRetainExp cb =
        (.success, { cb with core :=
          { cb.core with
            intCount := cb.core.intCount + 1
            extCount := cb.core.extCount + 1 } })) ∧
    (∀ cb : CL.CommandBuffer,
      (CL.urCommandBufferReleaseExp cb).1 = .success ∧
      (CL.urCommandBufferReleaseExp cb).2.core.extCount = cb.core.extCount - 1) ∧
    (∀ cb : CL.CommandBuffer, cb.core.extCount = 1 →
      (CL.urCommandBufferReleaseExp cb).2.commands = cb.commands.map (fun c =>
        if c.intCount - 1 ≠ 0 then { c with intCount := c.intCount - 1 }
        else { c with intCount := c.intCount - 1, alive := false })) ∧
    (∀ b : CL.BufCore, b.alive = true → 0 < b.intCount →
      ((CL.commandBufferReleaseInternal b).alive = false ↔ b.intCount = 1)) ∧
    (∀ (c : CL.Command) (b : CL.BufCore), c.intCount = 1 →
      (CL.commandHandleReleaseInternal c b).1.alive = false ∧
      (CL.commandHandleReleaseInternal c b).2 =
        CL.commandBufferReleaseInternal b) ∧
    (∀ (c : CL.Command) (b : CL.BufCore), 1 < c.intCount →
      (CL.commandHandleReleaseInternal c b).2 = b) := by
  refine ⟨fun cb => rfl, fun cb => ⟨?_, ?_⟩, fun cb h => ?_, fun b ha hp => ?_,
    fun c b h => ?_, fun c b h => ?_⟩
  · by_cases h0 : cb.core.extCount - 1 = 0
    · simp [CL.urCommandBufferReleaseExp, h0]
    · simp [CL.urCommandBufferReleaseExp, h0]
  · by_cases h0 : cb.core.extCount - 1 = 0
    · simp [CL.urCommandBufferReleaseExp, h0,
        CL.commandBufferReleaseInternal_extCount, CL.releaseAll_extCount]
    · simp [CL.urCommandBufferReleaseExp, h0,
        CL.commandBufferReleaseInternal_extCount]
  · simp [CL.urCommandBufferReleaseExp, h, CL.releaseAll_fst]
  · constructor
    · intro hz
      by_cases hi : b.intCount - 1 = 0
      · omega
      · exfalso
        unfold CL.commandBufferReleaseInternal at hz
        simp [hi] at hz
        rw [ha] at hz
        exact absurd hz (by simp)
    · intro h1
      simp [CL.commandBufferReleaseInternal, h1]
  · constructor
    · simp [CL.commandHandleReleaseInternal, h]
    · simp [CL.commandHandleReleaseInternal, h]
  · have hne : ¬ c.intCount - 1 = 0 := by omega
    simp [CL.commandHandleReleaseInternal, hne]

/-- Closed instance of C1 at a buffer holding two command handles (internal
counts 1 and 2) with external count 1 and internal count 3: the release
cascade decrements each handle once and deletes the first. -/
theorem claim_C1_witness :
    (CL.urCommandBufferReleaseExp
      { core :=
          { extCount := 1, intCount := 3, alive := true,
            isUpdatable := false, isFinalized := true }
        commands :=
          [{ extCount := 0, intCount := 1, alive := true, workDim := 1, nativeIdx := 0 },
           { extCount := 1, intCount := 2, alive := true, workDim := 2, nativeIdx := 1 }]
        native := { records := [], finalized := true } }).2.commands =
      [{ extCount := 0, intCount := 0, alive := false, workDim := 1, nativeIdx := 0 },
       { extCount := 1, intCount := 1, alive := true, workDim := 2, nativeIdx := 1 }] ∧
    ((CL.commandBufferReleaseInternal
      { extCount := 0, intCount := 1, alive := true,
        isUpdatable := false, isFinalized := true }).alive = false ↔
      (1 : Nat) = 1) ∧
    (CL.commandHandleReleaseInternal
      { extCount := 0, intCount := 2, alive := true, workDim := 1, nativeIdx := 0 }
      { extCount := 0, intCount := 2, alive := true,
        isUpdatable := false, isFinalized := true }).2 =
      { extCount := 0, intCount := 2, alive := true,
        isUpdatable := false, isFinalized := true } := by
  refine ⟨?_, ?_, ?_⟩
  · have h := claim_C1_dual_refcount_lifecycle.2.2.1
      { core :=
          { extCount := 1, intCount := 3, alive := true,
            isUpdatable := false, isFinalized := true }
        commands :=
          [{ extCount := 0, intCount := 1, alive := true, workDim := 1, nativeIdx := 0 },
           { extCount := 1, intCount := 2, alive := true, workDim := 2, nativeIdx := 1 }]
        native := { records := [], finalized := true } } rfl
    rw [h]
    decide
  · exact claim_C1_dual_refcount_lifecycle.2.2.2.1
      { extCount := 0, intCount := 1, alive := true,
        isUpdatable := false, isFinalized := true } rfl (by decide)
  · exact claim_C1_dual_refcount_lifecycle.2.2.2.2.2
      { extCount := 0, intCount := 2, alive := true, workDim := 1, nativeIdx := 0 }
      { extCount := 0, intCount := 2, alive := true,
        isUpdatable := false, isFinalized := true } (by decide)

/-- C7: an update-kernel-launch call on a command handle whose parent buffer
is not both finalized and updatable fails with invalid-operation and leaves
the command buffer (including every recorded dispatch) unchanged. -/
theorem claim_C7_update_requires_updatable_finalized :
    ∀ (env : CL.Env) (cb : CL.CommandBuffer) (i : Nat) (d : CL.UpdateDesc),
      ¬ (cb.core.isFinalized = true ∧ cb.core.isUpdatable = true) →
      CL.urCommandBufferUpdateKernelLaunchExp env cb i d =
        (.invalidOperation, cb) := by
  intro env cb i d h
  unfold CL.urCommandBufferUpdateKernelLaunchExp
  by_cases ha : env.updateAvail = true
  · cases hf : cb.core.isFinalized <;> cases hu : cb.core.isUpdatable <;>
      simp_all
  · simp [ha]

/-- Closed instance of C7: updating against a finalized but non-updatable
buffer fails with invalid-operation and mutates nothing. -/
theorem claim_C7_witness :
    CL.urCommandBufferUpdateKernelLaunchExp
      { createAvail := true, finalizeAvail := true, ndrangeAvail := true,
        enqueueAvail := true, updateAvail := true }
      { core :=
          { extCount := 1, intCount := 2, alive := true,
            isUpdatable := false, isFinalized := true }
        commands :=
          [{ extCount := 1, intCount := 1, alive := true, workDim := 2, nativeIdx := 0 }]
        native :=
          { records :=
              [{ kernel := 5, workDim := 2, globalWorkOffset := [0, 0],
                 globalWorkSize := [4, 4], localWorkSize := [2, 2],
                 args := [], svmArgs := [], execInfos := [] }]
            finalized := true } }
      0
      { execInfos := [], pointerArgs := [], memObjArgs := [], valueArgs := [],
        newWorkDim := 0, newGlobalWorkOffset := none,
        newGlobalWorkSize := none, newLocalWorkSize := none } =
      (.invalidOperation,
        { core :=
            { extCount := 1, intCount := 2, alive := true,
              isUpdatable := false, isFinalized := true }
          commands :=
            [{ extCount := 1, intCount := 1, alive := true, workDim := 2, nativeIdx := 0 }]
          native :=
            { records :=
                [{ kernel := 5, workDim := 2, globalWorkOffset := [0, 0],
                   globalWorkSize := [4, 4], localWorkSize := [2, 2],
                   args := [], svmArgs := [], execInfos := [] }]
              finalized := true } }) :=
  claim_C7_update_requires_updatable_finalized _ _ 0 _ (by decide)

/-- C8: under an updatable, finalized parent buffer, an update request whose
new work dimensionality is specified (non-zero) and differs from the
dimensionality recorded at append time is rejected with unsupported-feature,
and the command buffer (including the recorded dispatch) is unchanged. -/
theorem claim_C8_workdim_immutable :
    ∀ (env : CL.Env) (cb : CL.CommandBuffer) (i : Nat) (d : CL.UpdateDesc)
      (c : CL.Command) (infos : List Nat),
      env.updateAvail = true →
      cb.core.isFinalized = true → cb.core.isUpdatable = true →
      CL.buildExecInfos d.execInfos = .ok infos →
      cb.commands.get? i = some c →
      d.newWorkDim ≠ 0 → d.newWorkDim ≠ c.workDim →
      CL.urCommandBufferUpdateKernelLaunchExp env cb i d =
        (.unsupportedFeature, cb) := by
  intro env cb i d c infos ha hf hu hinfos hc hnz hne
  unfold CL.urCommandBufferUpdateKernelLaunchExp
  rw [hinfos, hc]
  simp [ha, hf, hu, hnz, hne]

/-- Closed instance of C8: changing the work dimensionality from the recorded
2 to 3 on an updatable, finalized buffer is rejected with
unsupported-feature and mutates nothing. -/
theorem claim_C8_witness :
    CL.urCommandBufferUpdateKernelLaunchExp
      { createAvail := true, finalizeAvail := true, ndrangeAvail := true,
        enqueueAvail := true, updateAvail := true }
      { core :=
          { extCount := 1, intCount := 2, alive := true,
            isUpdatable := true, isFinalized := true }
        commands :=
          [{ extCount := 1, intCount := 1, alive := true, workDim := 2, nativeIdx := 0 }]
        native :=
          { records :=
              [{ kernel := 5, workDim := 2, globalWorkOffset := [0, 0],
                 globalWorkSize := [4, 4], localWorkSize := [2, 2],
                 args := [], svmArgs := [], execInfos := [] }]
            finalized := true } }
      0
      { execInfos := [], pointerArgs := [], memObjArgs := [], valueArgs := [],
        newWorkDim := 3, newGlobalWorkOffset := none,
        newGlobalWorkSize := some [8, 8, 8], newLocalWorkSize := none } =
      (.unsupportedFeature,
        { core :=
            { extCount := 1, intCount := 2, alive := true,
              isUpdatable := true, isFinalized := true }
          commands :=
            [{ extCount := 1, intCount := 1, alive := true, workDim := 2, nativeIdx := 0 }]
          native :=
            { records :=
                [{ kernel := 5, workDim := 2, globalWorkOffset := [0, 0],
                   globalWorkSize := [4, 4], localWorkSize := [2, 2],
                   args := [], svmArgs := [], execInfos := [] }]
              finalized := true } }) :=
  claim_C8_workdim_immutable _ _ 0 _
    { extCount := 1, intCount := 1, alive := true, workDim := 2, nativeIdx := 0 }
    [] rfl rfl rfl rfl rfl (by decide) (by decide)

/-- C9: enqueueing a finalized command buffer does not mutate the buffer
object on either adapter: the HIP adapter only reads `HIPGraphExec` and the
OpenCL adapter only reads the native command buffer, so the graph, the
executable graph, the sync-point registry, the command-handle list and the
reference counts are all unchanged, for every queue and wait list. -/
theorem claim_C9_enqueue_frame :
    (∀ (cb : HIP.CommandBuffer) (q : HIP.Queue) (wl : List Nat) (we : Bool)
      (g : List HIP.Node), cb.graphExec = some g →
      (HIP.urCommandBufferEnqueueExp cb q wl we).2.1 = cb) ∧
    (∀ (env : CL.Env) (cb : CL.CommandBuffer) (q : CL.Queue) (wl : List Nat),
      cb.core.isFinalized = true →
      (CL.urCommandBufferEnqueueExp env cb q wl).2.1 = cb) := by
  constructor
  · intro cb q wl we g hg
    unfold HIP.urCommandBufferEnqueueExp
    rw [hg]
  · intro env cb q wl hf
    unfold CL.urCommandBufferEnqueueExp
    split <;> rfl

/-- Closed instance of C9: enqueueing a concrete finalized buffer twice on
each adapter returns it unchanged. -/
theorem claim_C9_witness :
    (HIP.urCommandBufferEnqueueExp
      { context := 0, device := 0, graph := [], graphExec := some [],
        syncPoints := [], nextSyncPoint := 0, nextNodeId := 0, refCount := 1 }
      { device := 0, execLog := [] } [3] true).2.1 =
      { context := 0, device := 0, graph := [], graphExec := some [],
        syncPoints := [], nextSyncPoint := 0, nextNodeId := 0, refCount := 1 } ∧
    (CL.urCommandBufferEnqueueExp
      { createAvail := true, finalizeAvail := true, ndrangeAvail := true,
        enqueueAvail := true, updateAvail := true }
      { core :=
          { extCount := 1, intCount := 1, alive := true,
            isUpdatable := false, isFinalized := true }
        commands := []
        native := { records := [], finalized := true } }
      { execLog := [] } []).2.1 =
      { core :=
          { extCount := 1, intCount := 1, alive := true,
            isUpdatable := false, isFinalized := true }
        commands := []
        native := { records := [], finalized := true } } :=
  ⟨claim_C9_enqueue_frame.1 _ _ [3] true [] rfl,
    claim_C9_enqueue_frame.2 _ _ _ [] rfl⟩

/-! Helper lemmas about wait-list resolution and the power-of-two test. -/

theorem HIP.getNodes_error_of_unknown (cb : HIP.CommandBuffer) (wl : List Nat) :
    (∃ sp ∈ wl, cb.syncPoints.lookup sp = none) →
    HIP.getNodesFromSyncPoints cb wl = .error .invalidValue := by
  induction wl with
  | nil =>
    rintro ⟨sp, hmem, _⟩
    cases hmem
  | cons a rest ih =>
    rintro ⟨sp, hmem, hnone⟩
    unfold HIP.getNodesFromSyncPoints
    cases hla : cb.syncPoints.lookup a with
    | none => rfl
    | some node =>
      rcases List.mem_cons.mp hmem with heq | htail
      · rw [heq] at hnone
        rw [hnone] at hla
        cases hla
      · rw [ih ⟨sp, htail, hnone⟩]

theorem Nat.eq_pow_of_and_pred_eq_zero (n : Nat) (hpos : 0 < n)
    (h : n &&& (n - 1) = 0) : n = 2 ^ n.log2 := by
  by_contra hne
  have hn0 : n ≠ 0 := by omega
  have hle : 2 ^ n.log2 ≤ n := Nat.log2_self_le hn0
  have hlt : n < 2 ^ (n.log2 + 1) := Nat.lt_log2_self
  have h2 : 2 ^ (n.log2 + 1) = 2 ^ n.log2 * 2 := Nat.pow_succ ..
  have hb1 : n.testBit n.log2 = true := by
    rw [Nat.testBit_to_div_mod]
    have hdiv : n / 2 ^ n.log2 = 1 :=
      Nat.div_eq_of_lt_le (by omega) (by omega)
    simp [hdiv]
  have hb2 : (n - 1).testBit n.log2 = true := by
    rw [Nat.testBit_to_div_mod]
    have hdiv : (n - 1) / 2 ^ n.log2 = 1 :=
      Nat.div_eq_of_lt_le (by omega) (by omega)
    simp [hdiv]
  have hz := congrArg (fun x => x.testBit n.log2) h
  simp only [Nat.testBit_land, hb1, hb2, Nat.zero_testBit, Bool.and_self] at hz
  cases hz

/-- C4: on the HIP adapter, every append operation whose wait list contains a
sync point unknown to the buffer's sync-point registry fails with
invalid-value and leaves the buffer unchanged (in particular, no graph node
is inserted and no sync point is minted): this holds for kernel launch (once
its kernel/work-dimension preconditions pass), USM memcpy, buffer copy (once
its bounds checks pass), buffer read, buffer write, buffer fill and USM fill
(once their pattern checks pass), USM prefetch and USM advise. -/
theorem claim_C4_unknown_sync_point :
    ∀ (cb : HIP.CommandBuffer) (wl : List Nat),
      (∃ sp ∈ wl, cb.syncPoints.lookup sp = none) →
      (∀ (k : HIP.Kernel) (workDim : Nat) (gwo gws lws : List Nat),
        k.context = cb.context → workDim ≠ 0 → workDim ≤ 3 →
        HIP.urCommandBufferAppendKernelLaunchExp cb k workDim gwo gws lws wl =
          (.invalidValue, cb, none)) ∧
      (∀ dst src size : Nat,
        HIP.urCommandBufferAppendUSMMemcpyExp cb dst src size wl =
          (.invalidValue, cb, none)) ∧
      (∀ (srcMem dstMem : HIP.BufferMem) (srcOff dstOff size : Nat),
        size + dstOff ≤ dstMem.size → size + srcOff ≤ srcMem.size →
        HIP.urCommandBufferAppendMemBufferCopyExp cb srcMem dstMem srcOff
          dstOff size wl = (.invalidValue, cb, none)) ∧
      (∀ (buf : HIP.BufferMem) (off size src : Nat),
        HIP.urCommandBufferAppendMemBufferWriteExp cb buf off size src wl =
          (.invalidValue, cb, none)) ∧
      (∀ (buf : HIP.BufferMem) (off size dst : Nat),
        HIP.urCommandBufferAppendMemBufferReadExp cb buf off size dst wl =
          (.invalidValue, cb, none)) ∧
      (∀ (buf : HIP.BufferMem) (pat : List Nat) (psize off size : Nat),
        (off % psize = 0 ∨ size % psize = 0) →
        (psize &&& (psize - 1)) = 0 → 0 < psize →
        HIP.urCommandBufferAppendMemBufferFillExp cb buf (some pat) psize off
          size wl = some (.invalidValue, cb, none)) ∧
      (∀ (ptr : Nat) (pat : List Nat) (psize size : Nat),
        (psize &&& (psize - 1)) = 0 → 0 < psize →
        HIP.urCommandBufferAppendUSMFillExp cb ptr (some pat) psize size wl =
          (.invalidValue, cb, none)) ∧
      HIP.urCommandBufferAppendUSMPrefetchExp cb wl = (.invalidValue, cb, none) ∧
      HIP.urCommandBufferAppendUSMAdviseExp cb wl = (.invalidValue, cb, none) := by
  intro cb wl hunk
  have herr := HIP.getNodes_error_of_unknown cb wl hunk
  refine ⟨?_, ?_, ?_, ?_, ?_, ?_, ?_, ?_, ?_⟩
  · intro k workDim gwo gws lws hctx hw0 hw3
    have h3 : ¬ 3 < workDim := by omega
    simp [HIP.urCommandBufferAppendKernelLaunchExp, hctx, hw0, h3, herr]
  · intro dst src size
    simp [HIP.urCommandBufferAppendUSMMemcpyExp, herr]
  · intro srcMem dstMem srcOff dstOff size hd hs
    simp [HIP.urCommandBufferAppendMemBufferCopyExp, hd, hs, herr]
  · intro buf off size src
    simp [HIP.urCommandBufferAppendMemBufferWriteExp, herr]
  · intro buf off size dst
    simp [HIP.urCommandBufferAppendMemBufferReadExp, herr]
  · intro buf pat psize off size hmul hpow hpos
    have h0 : ¬ psize = 0 := by omega
    simp [HIP.urCommandBufferAppendMemBufferFillExp, h0, hmul, hpow, hpos,
      HIP.enqueueCommandBufferFillHelper, herr]
  · intro ptr pat psize size hpow hpos
    simp [HIP.urCommandBufferAppendUSMFillExp, hpow, hpos,
      HIP.enqueueCommandBufferFillHelper, herr]
  · simp [HIP.urCommandBufferAppendUSMPrefetchExp, herr]
  · simp [HIP.urCommandBufferAppendUSMAdviseExp, herr]

/-- Closed instance of C4: on a buffer whose registry only knows sync point
0, a wait list naming sync point 5 makes a kernel-launch append and a buffer
fill fail with invalid-value and leave the buffer unchanged. -/
theorem claim_C4_witness :
    HIP.urCommandBufferAppendKernelLaunchExp
      { context := 0, device := 0,
        graph := [{ id := 0, deps := [], kind := .empty }], graphExec := none,
        syncPoints := [(0, 0)], nextSyncPoint := 1, nextNodeId := 1,
        refCount := 1 }
      { context := 0, func := 7, localSize := 0, argIndices := [] }
      1 [] [4] [] [5] =
      (.invalidValue,
        { context := 0, device := 0,
          graph := [{ id := 0, deps := [], kind := .empty }], graphExec := none,
          syncPoints := [(0, 0)], nextSyncPoint := 1, nextNodeId := 1,
          refCount := 1 }, none) ∧
    HIP.urCommandBufferAppendMemBufferFillExp
      { context := 0, device := 0,
        graph := [{ id := 0, deps := [], kind := .empty }], graphExec := none,
        syncPoints := [(0, 0)], nextSyncPoint := 1, nextNodeId := 1,
        refCount := 1 }
      { ptr := 0, size := 16 } (some [9]) 1 0 4 [5] =
      some (.invalidValue,
        { context := 0, device := 0,
          graph := [{ id := 0, deps := [], kind := .empty }], graphExec := none,
          syncPoints := [(0, 0)], nextSyncPoint := 1, nextNodeId := 1,
          refCount := 1 }, none) := by
  have h := claim_C4_unknown_sync_point
    { context := 0, device := 0,
      graph := [{ id := 0, deps := [], kind := .empty }], graphExec := none,
      syncPoints := [(0, 0)], nextSyncPoint := 1, nextNodeId := 1,
      refCount := 1 }
    [5] ⟨5, by decide, by decide⟩
  exact ⟨h.1 { context := 0, func := 7, localSize := 0, argIndices := [] }
      1 [] [4] [] rfl (by decide) (by decide),
    h.2.2.2.2.2.1 { ptr := 0, size := 16 } [9] 1 0 4 (by decide) (by decide)
      (by decide)⟩

/-- C5: on the HIP adapter, a fill append whose non-zero pattern size is not
a power of two, or whose pattern pointer is null, returns invalid-size,
leaves the buffer unchanged and mints no sync point (the USM fill also
rejects pattern size zero this way, having no modulo to compute); at pattern
size zero, however, the buffer-fill entry point evaluates
`offset % patternSize` before the `patternSize > 0` validation — a division
by zero, undefined behavior — so it does not return invalid-size there,
diverging from the claimed behavior and from the validation the surrounding
code intends. -/
theorem claim_C5_fill_pattern_validation :
    (∀ (cb : HIP.CommandBuffer) (buf : HIP.BufferMem)
      (pat : Option (List Nat)) (psize off size : Nat) (wl : List Nat),
      psize ≠ 0 → ((∀ j : Nat, psize ≠ 2 ^ j) ∨ pat = none) →
      HIP.urCommandBufferAppendMemBufferFillExp cb buf pat psize off size wl =
        some (.invalidSize, cb, none)) ∧
    (∀ (cb : HIP.CommandBuffer) (ptr : Nat) (pat : Option (List Nat))
      (psize size : Nat) (wl : List Nat),
      ((∀ j : Nat, psize ≠ 2 ^ j) ∨ pat = none) →
      HIP.urCommandBufferAppendUSMFillExp cb ptr pat psize size wl =
        (.invalidSize, cb, none)) ∧
    (∀ (cb : HIP.CommandBuffer) (buf : HIP.BufferMem)
      (pat : Option (List Nat)) (off size : Nat) (wl : List Nat),
      HIP.urCommandBufferAppendMemBufferFillExp cb buf pat 0 off size wl =
        none) := by
  have hguard : ∀ (pat : Option (List Nat)) (psize : Nat),
      ((∀ j : Nat, psize ≠ 2 ^ j) ∨ pat = none) →
      ¬ (pat.isSome = true ∧ ((psize &&& (psize - 1)) = 0 ∧ 0 < psize)) := by
    rintro pat psize hbad ⟨hsome, hpow, hpos⟩
    rcases hbad with hnp | hnone
    · exact hnp psize.log2 (Nat.eq_pow_of_and_pred_eq_zero psize hpos hpow)
    · rw [hnone] at hsome
      cases hsome
  refine ⟨?_, ?_, ?_⟩
  · intro cb buf pat psize off size wl h0 hbad
    unfold HIP.urCommandBufferAppendMemBufferFillExp
    rw [if_neg h0, if_neg]
    rintro ⟨_, hrest⟩
    exact hguard pat psize hbad hrest
  · intro cb ptr pat psize size wl hbad
    unfold HIP.urCommandBufferAppendUSMFillExp
    rw [if_neg (hguard pat psize hbad)]
  · intro cb buf pat off size wl
    unfold HIP.urCommandBufferAppendMemBufferFillExp
    rw [if_pos rfl]

/-- Closed instance of C5: a fill with pattern size 3 (not a power of two)
returns invalid-size on both fill entry points with no sync point minted,
while the buffer fill at the failing input, pattern size 0, reaches the
undefined modulo-by-zero (modelled `none`) instead of returning
invalid-size. -/
theorem claim_C5_witness :
    HIP.urCommandBufferAppendMemBufferFillExp (HIP.mkCommandBuffer 0 0)
      { ptr := 0, size := 12 } (some [1, 2, 3]) 3 0 12 [] =
      some (.invalidSize, HIP.mkCommandBuffer 0 0, none) ∧
    HIP.urCommandBufferAppendUSMFillExp (HIP.mkCommandBuffer 0 0) 0
      (some [1, 2, 3]) 3 12 [] =
      (.invalidSize, HIP.mkCommandBuffer 0 0, none) ∧
    HIP.urCommandBufferAppendMemBufferFillExp (HIP.mkCommandBuffer 0 0)
      { ptr := 0, size := 16 } (some [1]) 0 0 16 [] = none := by
  have hnp : ∀ j : Nat, (3 : Nat) ≠ 2 ^ j := by
    intro j h
    rcases j with _ | _ | j
    · cases h
    · cases h
    · have h4 : (2 : Nat) ^ 2 ≤ 2 ^ (j + 1 + 1) :=
        Nat.pow_le_pow_right (by omega) (by omega)
      have h2 : (2 : Nat) ^ 2 = 4 := by norm_num
      omega
  exact ⟨claim_C5_fill_pattern_validation.1 (HIP.mkCommandBuffer 0 0)
      { ptr := 0, size := 12 } (some [1, 2, 3]) 3 0 12 [] (by decide)
      (Or.inl hnp),
    claim_C5_fill_pattern_validation.2.1 (HIP.mkCommandBuffer 0 0) 0
      (some [1, 2, 3]) 3 12 [] (Or.inl hnp),
    claim_C5_fill_pattern_validation.2.2 (HIP.mkCommandBuffer 0 0)
      { ptr := 0, size := 16 } (some [1]) 0 16 []⟩

/-- C6 counterexample: the claim fails on the HIP adapter, whose
`urCommandBufferCreateExp` discards the descriptor (`(void)pCommandBufferDesc`):
a create call requesting an updatable buffer on a HIP device — which does not
report command-buffer update support — returns success and produces a buffer,
instead of failing with invalid-operation. -/
theorem claim_C6_counterexample :
    HIP.hipDeviceSupportsUpdate = false ∧
    HIP.urCommandBufferCreateExp 0 0 (some { isUpdatable := true }) =
      (.success, some (HIP.mkCommandBuffer 0 0)) :=
  ⟨rfl, rfl⟩

/-- C6 amended: on the OpenCL adapter, a create call requesting an updatable
buffer on a device without update support fails with invalid-operation and
produces no buffer, and otherwise creation succeeds with external reference
count 1; the HIP adapter ignores the descriptor and always succeeds with
reference count 1. -/
theorem claim_C6_amended_thm :
    (∀ (env : CL.Env) (desc : Option Bool) (sup : Bool),
      env.createAvail = true → desc.getD false = true → sup = false →
      CL.urCommandBufferCreateExp env desc sup = (.invalidOperation, none)) ∧
    (∀ (env : CL.Env) (desc : Option Bool) (sup : Bool),
      env.createAvail = true → (desc.getD false = false ∨ sup = true) →
      ∃ cb : CL.CommandBuffer,
        CL.urCommandBufferCreateExp env desc sup = (.success, some cb) ∧
        cb.core.extCount = 1) ∧
    (∀ (ctx dev : Nat) (desc : Option HIP.Descriptor),
      ∃ cb : HIP.CommandBuffer,
        HIP.urCommandBufferCreateExp ctx dev desc = (.success, some cb) ∧
        cb.refCount = 1) := by
  refine ⟨?_, ?_, ?_⟩
  · intro env desc sup ha hupd hsup
    simp [CL.urCommandBufferCreateExp, ha, hupd, hsup]
  · intro env desc sup ha hok
    refine
      ⟨{ core :=
           { extCount := 1, intCount := 1, alive := true,
             isUpdatable := desc.getD false, isFinalized := false }
         commands := []
         native := { records := [], finalized := false } }, ?_, rfl⟩
    rcases hok with hupd | hsup
    · simp [CL.urCommandBufferCreateExp, ha, hupd]
    · simp [CL.urCommandBufferCreateExp, ha, hsup]
  · intro ctx dev desc
    exact ⟨HIP.mkCommandBuffer ctx dev, rfl, rfl⟩

/-- Closed instance of the amended C6: requesting an updatable OpenCL buffer
without device support fails with invalid-operation, while a supported
request and a HIP request both succeed with reference count 1. -/
theorem claim_C6_witness :
    CL.urCommandBufferCreateExp
      { createAvail := true, finalizeAvail := true, ndrangeAvail := true,
        enqueueAvail := true, updateAvail := true } (some true) false =
      (.invalidOperation, none) ∧
    (∃ cb : CL.CommandBuffer,
      CL.urCommandBufferCreateExp
        { createAvail := true, finalizeAvail := true, ndrangeAvail := true,
          enqueueAvail := true, updateAvail := true } (some true) true =
        (.success, some cb) ∧ cb.core.extCount = 1) ∧
    (∃ cb : HIP.CommandBuffer,
      HIP.urCommandBufferCreateExp 3 4 none = (.success, some cb) ∧
        cb.refCount = 1) :=
  ⟨claim_C6_amended_thm.1 _ (some true) false rfl rfl rfl,
    claim_C6_amended_thm.2.1 _ (some true) true rfl (Or.inr rfl),
    claim_C6_amended_thm.2.2 3 4 none⟩

/-- C10: on the HIP adapter, a kernel-launch append whose global work size
has first element zero (under the context and work-dimension preconditions
and a fully resolvable wait list) succeeds without a kernel node: it inserts
exactly one empty graph node whose dependency list is the resolved wait list,
mints a sync point bound to that node, and returns it; moreover the result is
identical for any kernel of the same context and for any local-size and
global-offset arguments, i.e. kernel arguments and local size are never
consulted. -/
theorem claim_C10_zero_global_size_empty_node :
    ∀ (cb : HIP.CommandBuffer) (k : HIP.Kernel) (workDim : Nat)
      (gwo gws lws wl deps : List Nat),
      k.context = cb.context → workDim ≠ 0 → workDim ≤ 3 →
      HIP.getNodesFromSyncPoints cb wl = .ok deps →
      gws.getD 0 0 = 0 →
      HIP.urCommandBufferAppendKernelLaunchExp cb k workDim gwo gws lws wl =
        (.success,
          { cb with
            graph := cb.graph ++
              [{ id := cb.nextNodeId, deps := deps, kind := .empty }]
            nextNodeId := cb.nextNodeId + 1
            syncPoints := cb.syncPoints ++ [(cb.nextSyncPoint, cb.nextNodeId)]
            nextSyncPoint := cb.nextSyncPoint + 1 },
          some cb.nextSyncPoint) ∧
      (∀ (k2 : HIP.Kernel) (gwo2 lws2 : List Nat), k2.context = cb.context →
        HIP.urCommandBufferAppendKernelLaunchExp cb k2 workDim gwo2 gws lws2 wl =
          HIP.urCommandBufferAppendKernelLaunchExp cb k workDim gwo gws lws wl) := by
  intro cb k workDim gwo gws lws wl deps hctx hw0 hw3 hres hzero
  have h3 : ¬ 3 < workDim := by omega
  have hz2 : gws[0]?.getD 0 = 0 := by simpa using hzero
  constructor
  · simp [HIP.urCommandBufferAppendKernelLaunchExp, hctx, hw0, h3, hres, hz2,
      HIP.addNode, HIP.AddSyncPoint]
  · intro k2 gwo2 lws2 hctx2
    simp [HIP.urCommandBufferAppendKernelLaunchExp, hctx, hctx2, hw0, h3, hres,
      hz2]

/-- Closed instance of C10: a zero-sized kernel launch waiting on sync point
0 of a one-node buffer appends an empty node depending on node 0 and returns
sync point 1 bound to it. -/
theorem claim_C10_witness :
    HIP.urCommandBufferAppendKernelLaunchExp
      { context := 2, device := 0,
        graph := [{ id := 0, deps := [], kind := .empty }], graphExec := none,
        syncPoints := [(0, 0)], nextSyncPoint := 1, nextNodeId := 1,
        refCount := 1 }
      { context := 2, func := 9, localSize := 64, argIndices := [3, 4] }
      1 [0] [0, 5] [8] [0] =
      (.success,
        { context := 2, device := 0,
          graph := [{ id := 0, deps := [], kind := .empty },
            { id := 1, deps := [0], kind := .empty }],
          graphExec := none, syncPoints := [(0, 0), (1, 1)],
          nextSyncPoint := 2, nextNodeId := 2, refCount := 1 },
        some 1) :=
  (claim_C10_zero_global_size_empty_node
    { context := 2, device := 0,
      graph := [{ id := 0, deps := [], kind := .empty }], graphExec := none,
      syncPoints := [(0, 0)], nextSyncPoint := 1, nextNodeId := 1,
      refCount := 1 }
    { context := 2, func := 9, localSize := 64, argIndices := [3, 4] }
    1 [0] [0, 5] [8] [0] [0] rfl (by decide) (by decide) rfl rfl).1

/-- C2 counterexample: the claim fails on the HIP adapter, whose append path
never consults the finalized state: appending a kernel launch to a freshly
finalized HIP buffer returns success — not invalid-operation — and inserts a
new graph node and sync point. -/
theorem claim_C2_counterexample :
    (HIP.urCommandBufferAppendKernelLaunchExp
      (HIP.urCommandBufferFinalizeExp (HIP.mkCommandBuffer 0 0)).2
      { context := 0, func := 1, localSize := 0, argIndices := [] }
      1 [] [0] [] []).1 = .success ∧
    (HIP.urCommandBufferAppendKernelLaunchExp
      (HIP.urCommandBufferFinalizeExp (HIP.mkCommandBuffer 0 0)).2
      { context := 0, func := 1, localSize := 0, argIndices := [] }
      1 [] [0] [] []).2.1.graph.length = 1 ∧
    (HIP.urCommandBufferFinalizeExp (HIP.mkCommandBuffer 0 0)).2.graph.length
      = 0 := by
  refine ⟨?_, ?_, ?_⟩ <;> rfl

/-- C2 amended: the adapters do not themselves reject appends after finalize.
On the HIP adapter an append to a finalized buffer (here a kernel append
passing its preconditions) succeeds and inserts a node into the recording
graph, while the already-instantiated executable graph — the graph enqueue
launches — is unchanged.  On the OpenCL adapter the append is forwarded to
the native runtime, which rejects recording into a finalized native command
buffer; the adapter then returns invalid-operation and the buffer (native
records and command handles) is unchanged, independently of the adapter-level
`IsFinalized` flag. -/
theorem claim_C2_amended_thm :
    (∀ (cb : HIP.CommandBuffer) (g : List HIP.Node) (k : HIP.Kernel)
      (workDim : Nat) (gwo gws lws wl deps : List Nat),
      cb.graphExec = some g →
      k.context = cb.context → workDim ≠ 0 → workDim ≤ 3 →
      HIP.getNodesFromSyncPoints cb wl = .ok deps → gws.getD 0 0 = 0 →
      (HIP.urCommandBufferAppendKernelLaunchExp cb k workDim gwo gws lws
        wl).1 = .success ∧
      (HIP.urCommandBufferAppendKernelLaunchExp cb k workDim gwo gws lws
        wl).2.1.graph.length = cb.graph.length + 1 ∧
      (HIP.urCommandBufferAppendKernelLaunchExp cb k workDim gwo gws lws
        wl).2.1.graphExec = some g) ∧
    (∀ (env : CL.Env) (cb : CL.CommandBuffer) (hKernel workDim : Nat)
      (gwo gws lws : List Nat),
      cb.native.finalized = true →
      CL.urCommandBufferAppendKernelLaunchExp env cb hKernel workDim gwo gws
        lws = (.invalidOperation, cb, none)) := by
  constructor
  · intro cb g k workDim gwo gws lws wl deps hexec hctx hw0 hw3 hres hzero
    have h3 : ¬ 3 < workDim := by omega
    have hz2 : gws[0]?.getD 0 = 0 := by simpa using hzero
    refine ⟨?_, ?_, ?_⟩ <;>
      simp [HIP.urCommandBufferAppendKernelLaunchExp, hctx, hw0, h3, hres,
        hz2, HIP.addNode, HIP.AddSyncPoint, hexec]
  · intro env cb hKernel workDim gwo gws lws hfin
    by_cases ha : env.ndrangeAvail = true
    · simp [CL.urCommandBufferAppendKernelLaunchExp, ha, hfin]
    · simp [CL.urCommandBufferAppendKernelLaunchExp, ha]

/-- Closed instance of the amended C2: appending to a concrete finalized
buffer on each adapter — HIP succeeds and grows the recording graph while
the executable stays the empty snapshot; OpenCL returns invalid-operation
and leaves the buffer unchanged. -/
theorem claim_C2_witness :
    ((HIP.urCommandBufferAppendKernelLaunchExp
      { context := 0, device := 0, graph := [], graphExec := some [],
        syncPoints := [], nextSyncPoint := 0, nextNodeId := 0, refCount := 1 }
      { context := 0, func := 1, localSize := 0, argIndices := [] }
      1 [] [0] [] []).1 = .success ∧
    (HIP.urCommandBufferAppendKernelLaunchExp
      { context := 0, device := 0, graph := [], graphExec := some [],
        syncPoints := [], nextSyncPoint := 0, nextNodeId := 0, refCount := 1 }
      { context := 0, func := 1, localSize := 0, argIndices := [] }
      1 [] [0] [] []).2.1.graph.length = 0 + 1 ∧
    (HIP.urCommandBufferAppendKernelLaunchExp
      { context := 0, device := 0, graph := [], graphExec := some [],
        syncPoints := [], nextSyncPoint := 0, nextNodeId := 0, refCount := 1 }
      { context := 0, func := 1, localSize := 0, argIndices := [] }
      1 [] [0] [] []).2.1.graphExec = some []) ∧
    CL.urCommandBufferAppendKernelLaunchExp
      { createAvail := true, finalizeAvail := true, ndrangeAvail := true,
        enqueueAvail := true, updateAvail := true }
      { core :=
          { extCount := 1, intCount := 1, alive := true,
            isUpdatable := false, isFinalized := true }
        commands := []
        native := { records := [], finalized := true } }
      5 1 [0] [4] [2] =
      (.invalidOperation,
        { core :=
            { extCount := 1, intCount := 1, alive := true,
              isUpdatable := false, isFinalized := true }
          commands := []
          native := { records := [], finalized := true } }, none) :=
  ⟨claim_C2_amended_thm.1
      { context := 0, device := 0, graph := [], graphExec := some [],
        syncPoints := [], nextSyncPoint := 0, nextNodeId := 0, refCount := 1 }
      [] { context := 0, func := 1, localSize := 0, argIndices := [] }
      1 [] [0] [] [] [] rfl rfl (by decide) (by decide) rfl rfl,
    claim_C2_amended_thm.2 _ _ 5 1 [0] [4] [2] rfl⟩

/-! Helper lemmas about the fill decomposition loop. -/

theorem HIP.fillSteps_eq (dstPtr : Nat) (pattern : List Nat)
    (numberOfSteps size : Nat) :
    ∀ (L : List Nat) (cb : HIP.CommandBuffer) (prev lastSp : Nat),
      HIP.fillSteps dstPtr pattern numberOfSteps size cb prev lastSp L =
        ({ cb with
            graph := cb.graph ++
              HIP.chainNodes dstPtr pattern numberOfSteps size cb.nextNodeId
                prev L
            nextNodeId := cb.nextNodeId + L.length
            syncPoints := cb.syncPoints ++
              HIP.mintPairs cb.nextSyncPoint cb.nextNodeId L.length
            nextSyncPoint := cb.nextSyncPoint + L.length },
          if L.length = 0 then lastSp else
            cb.nextSyncPoint + (L.length - 1)) := by
  intro L
  induction L with
  | nil =>
    intro cb prev lastSp
    simp [HIP.fillSteps, HIP.chainNodes, HIP.mintPairs]
  | cons step rest ih =>
    intro cb prev lastSp
    simp only [HIP.fillSteps, HIP.addNode, HIP.AddSyncPoint]
    rw [ih]
    by_cases h0 : rest.length = 0
    · simp [h0, HIP.chainNodes, HIP.mintPairs, HIP.stepNode,
        List.append_assoc]
    · have hlen : rest.length + 1 ≠ 0 := by omega
      simp only [List.length_cons, if_neg h0, if_neg hlen, HIP.chainNodes,
        HIP.stepNode, HIP.mintPairs, List.cons_append, List.append_assoc,
        List.nil_append]
      have e1 : cb.nextSyncPoint + 1 + rest.length
          = cb.nextSyncPoint + (rest.length + 1) := by omega
      have e2 : cb.nextNodeId + 1 + rest.length
          = cb.nextNodeId + (rest.length + 1) := by omega
      have e3 : cb.nextSyncPoint + 1 + (rest.length - 1)
          = cb.nextSyncPoint + (rest.length + 1 - 1) := by omega
      rw [e1, e2, e3]

theorem HIP.chainNodes_length (dstPtr : Nat) (pattern : List Nat)
    (numberOfSteps size : Nat) :
    ∀ (L : List Nat) (startId prev : Nat),
      (HIP.chainNodes dstPtr pattern numberOfSteps size startId prev L).length
        = L.length := by
  intro L
  induction L with
  | nil => intro startId prev; rfl
  | cons step rest ih =>
    intro startId prev
    simp [HIP.chainNodes, ih]

theorem HIP.chainNodes_getD (dstPtr : Nat) (pattern : List Nat)
    (numberOfSteps size : Nat) :
    ∀ (L : List Nat) (startId prev j : Nat), j < L.length →
      (HIP.chainNodes dstPtr pattern numberOfSteps size startId prev L).getD j
        HIP.nodeD =
      HIP.stepNode dstPtr pattern numberOfSteps size (startId + j)
        (if j = 0 then prev else startId + j - 1) (L.getD j 0) := by
  intro L
  induction L with
  | nil =>
    intro startId prev j hj
    simp at hj
  | cons step rest ih =>
    intro startId prev j hj
    cases j with
    | zero => simp [HIP.chainNodes]
    | succ m =>
      have hm : m < rest.length := by simpa using hj
      simp only [HIP.chainNodes, List.getD_cons_succ]
      rw [ih (startId + 1) startId m hm]
      rw [if_neg (Nat.succ_ne_zero m)]
      by_cases hm0 : m = 0
      · subst hm0
        simp
      · rw [if_neg hm0]
        have e1 : startId + 1 + m = startId + (m + 1) := by omega
        rw [e1]

theorem HIP.mintPairs_getLast (n : Nat) :
    ∀ sp nid : Nat, 0 < n →
      (HIP.mintPairs sp nid n).getLast? =
        some (sp + (n - 1), nid + (n - 1)) := by
  induction n with
  | zero =>
    intro sp nid h
    omega
  | succ m ih =>
    intro sp nid _
    cases m with
    | zero => simp [HIP.mintPairs]
    | succ k =>
      have hrec := ih (sp + 1) (nid + 1) (by omega)
      rw [show HIP.mintPairs sp nid (k + 1 + 1) =
        (sp, nid) :: ((sp + 1, nid + 1) ::
          HIP.mintPairs (sp + 1 + 1) (nid + 1 + 1) k) from rfl]
      rw [List.getLast?_cons_cons]
      rw [show ((sp + 1, nid + 1) ::
        HIP.mintPairs (sp + 1 + 1) (nid + 1 + 1) k) =
        HIP.mintPairs (sp + 1) (nid + 1) (k + 1) from rfl]
      rw [hrec]
      simp only [Option.some.injEq, Prod.mk.injEq]
      omega

/-- C3 counterexample: an 8-byte fill on a fresh buffer (the decomposition
helper, reached by both fill entry points for any valid 8-byte pattern)
emits nodes 0..4; the third emitted node (graph index 2) has predecessor
list `[1]` only, which does not include the previously emitted node 0 —
refuting the claim that each subsequent node's predecessor list includes all
previously emitted nodes of the fill. -/
theorem claim_C3_counterexample :
    ((HIP.enqueueCommandBufferFillHelper (HIP.mkCommandBuffer 0 0) 0
      [1, 2, 3, 4, 5, 6, 7, 8] 8 32 []).2.1.graph.getD 0 HIP.nodeD).id = 0 ∧
    ((HIP.enqueueCommandBufferFillHelper (HIP.mkCommandBuffer 0 0) 0
      [1, 2, 3, 4, 5, 6, 7, 8] 8 32 []).2.1.graph.getD 2 HIP.nodeD).deps
      = [1] ∧
    ¬ 0 ∈ ((HIP.enqueueCommandBufferFillHelper (HIP.mkCommandBuffer 0 0) 0
      [1, 2, 3, 4, 5, 6, 7, 8] 8 32 []).2.1.graph.getD 2 HIP.nodeD).deps := by
  refine ⟨rfl, rfl, ?_⟩
  decide

/-- C3 amended: for a fill whose wait list resolves, a pattern of size 1, 2
or 4 emits exactly one memset node of that element size (with the resolved
predecessors) bound to the returned sync point; a larger power-of-two pattern
size emits one leading 4-byte-element node (with the resolved predecessors)
followed by one single-byte node per remaining pattern byte, where each
subsequent node's predecessor list is exactly the single immediately
preceding node of this fill (ordering across the decomposition is preserved
transitively, not by edges to all previous nodes), and the sync point
returned is the last minted one, bound to the last node emitted. -/
theorem claim_C3_amended_thm :
    ∀ (cb : HIP.CommandBuffer) (dstPtr : Nat) (pattern : List Nat)
      (patternSize size : Nat) (wl deps : List Nat),
      HIP.getNodesFromSyncPoints cb wl = .ok deps →
      ((patternSize = 1 ∨ patternSize = 2 ∨ patternSize = 4) →
        HIP.enqueueCommandBufferFillHelper cb dstPtr pattern patternSize size
          wl =
          (.success,
            { cb with
              graph := cb.graph ++
                [{ id := cb.nextNodeId, deps := deps,
                   kind := .memset
                     { dst := dstPtr, elementSize := patternSize,
                       height := size / patternSize, pitch := patternSize,
                       value := HIP.patternValue32 pattern, width := 1 } }]
              nextNodeId := cb.nextNodeId + 1
              syncPoints := cb.syncPoints ++ [(cb.nextSyncPoint, cb.nextNodeId)]
              nextSyncPoint := cb.nextSyncPoint + 1 },
            some cb.nextSyncPoint)) ∧
      (∀ (j : Nat) (res : UrResult) (cb2 : HIP.CommandBuffer)
        (sp : Option Nat),
        3 ≤ j → patternSize = 2 ^ j →
        HIP.enqueueCommandBufferFillHelper cb dstPtr pattern patternSize size
          wl = (res, cb2, sp) →
        res = .success ∧
        (HIP.newNodes cb cb2).length = patternSize - 3 ∧
        (HIP.newNodes cb cb2).getD 0 HIP.nodeD =
          { id := cb.nextNodeId, deps := deps,
            kind := .memset
              { dst := dstPtr, elementSize := 4, height := size / patternSize,
                pitch := patternSize, value := HIP.patternValue32 pattern,
                width := 1 } } ∧
        (∀ i : Nat, i + 1 < (HIP.newNodes cb cb2).length →
          ((HIP.newNodes cb cb2).getD (i + 1) HIP.nodeD).deps =
            [((HIP.newNodes cb cb2).getD i HIP.nodeD).id]) ∧
        (∀ i : Nat, 1 ≤ i → i < (HIP.newNodes cb cb2).length →
          ((HIP.newNodes cb cb2).getD i HIP.nodeD).kind =
            .memset
              { dst := dstPtr + (3 + i), elementSize := 1,
                height := size / patternSize, pitch := patternSize,
                value := pattern.getD (3 + i) 0, width := 1 }) ∧
        sp = some (cb.nextSyncPoint + (patternSize - 4)) ∧
        cb2.syncPoints.getLast? =
          some (cb.nextSyncPoint + (patternSize - 4),
            cb.nextNodeId + (patternSize - 4)) ∧
        ((HIP.newNodes cb cb2).getD ((HIP.newNodes cb cb2).length - 1)
          HIP.nodeD).id = cb.nextNodeId + (patternSize - 4)) := by
  intro cb dstPtr pattern patternSize size wl deps hres
  constructor
  · intro hsmall
    unfold HIP.enqueueCommandBufferFillHelper
    simp only [hres, if_pos hsmall]
    simp [HIP.addNode, HIP.AddSyncPoint]
  · intro j res cb2 sp hj hpow heq
    have hp8 : 8 ≤ patternSize := by
      have h8 : (2 : Nat) ^ 3 ≤ 2 ^ j := Nat.pow_le_pow_right (by omega) hj
      have h23 : (2 : Nat) ^ 3 = 8 := by norm_num
      omega
    have hne : ¬ (patternSize = 1 ∨ patternSize = 2 ∨ patternSize = 4) := by
      omega
    have hlen0 : patternSize - 4 ≠ 0 := by omega
    unfold HIP.enqueueCommandBufferFillHelper at heq
    simp only [hres, if_neg hne] at heq
    simp only [HIP.addNode, HIP.AddSyncPoint] at heq
    rw [HIP.fillSteps_eq] at heq
    simp only [List.length_range', if_neg hlen0] at heq
    have hr := congrArg
      (fun t : UrResult × HIP.CommandBuffer × Option Nat => t.1) heq
    have hcb := congrArg
      (fun t : UrResult × HIP.CommandBuffer × Option Nat => t.2.1) heq
    have hsp := congrArg
      (fun t : UrResult × HIP.CommandBuffer × Option Nat => t.2.2) heq
    simp only at hr hcb hsp
    subst hr
    subst hsp
    have hnn : HIP.newNodes cb cb2 =
        { id := cb.nextNodeId, deps := deps,
          kind := .memset
            { dst := dstPtr, elementSize := 4, height := size / patternSize,
              pitch := patternSize, value := HIP.patternValue32 pattern,
              width := 1 } } ::
          HIP.chainNodes dstPtr pattern patternSize size (cb.nextNodeId + 1)
            cb.nextNodeId (List.range' 4 (patternSize - 4)) := by
      rw [← hcb]
      unfold HIP.newNodes
      simp only [List.cons_append, List.nil_append, List.append_assoc]
      rw [List.drop_left]
    have hclen : (HIP.chainNodes dstPtr pattern patternSize size
        (cb.nextNodeId + 1) cb.nextNodeId
        (List.range' 4 (patternSize - 4))).length = patternSize - 4 := by
      rw [HIP.chainNodes_length, List.length_range']
    refine ⟨rfl, ?_, ?_, ?_, ?_, ?_, ?_, ?_⟩
    · rw [hnn]
      simp only [List.length_cons, hclen]
      omega
    · rw [hnn]
      rfl
    · intro i hi
      rw [hnn] at hi ⊢
      have hi2 : i < patternSize - 4 := by
        simp only [List.length_cons, hclen] at hi
        omega
      cases i with
      | zero =>
        simp only [List.getD_cons_succ, List.getD_cons_zero]
        rw [HIP.chainNodes_getD dstPtr pattern patternSize size _ _ _ 0
          (by rw [List.length_range']; omega)]
        simp [HIP.stepNode]
      | succ m =>
        simp only [List.getD_cons_succ]
        rw [HIP.chainNodes_getD dstPtr pattern patternSize size _ _ _ (m + 1)
          (by rw [List.length_range']; omega)]
        rw [HIP.chainNodes_getD dstPtr pattern patternSize size _ _ _ m
          (by rw [List.length_range']; omega)]
        simp only [HIP.stepNode, if_neg (Nat.succ_ne_zero m),
          List.cons.injEq, and_true]
        omega
    · intro i h1 hi
      rw [hnn] at hi ⊢
      have hi2 : i - 1 < patternSize - 4 := by
        simp only [List.length_cons, hclen] at hi
        omega
      have hidx : i = (i - 1) + 1 := by omega
      rw [hidx]
      simp only [List.getD_cons_succ]
      rw [HIP.chainNodes_getD dstPtr pattern patternSize size _ _ _ (i - 1)
        (by rw [List.length_range']; omega)]
      have hstep : (List.range' 4 (patternSize - 4)).getD (i - 1) 0 =
          3 + i := by
        rw [List.getD_eq_getElem _ _ (by rw [List.length_range']; omega)]
        rw [List.getElem_range']
        omega
      rw [hstep]
      simp [HIP.stepNode]
      exact ⟨hidx, by rw [← hidx]⟩
    · congr 1
      omega
    · rw [← hcb]
      simp only [List.append_assoc]
      rw [List.getLast?_append, List.getLast?_append]
      rw [HIP.mintPairs_getLast (patternSize - 4) _ _ (by omega)]
      simp only [Option.or_some, Option.some.injEq, Prod.mk.injEq]
      constructor <;> omega
    · rw [hnn]
      simp only [List.length_cons, hclen]
      have hidx : patternSize - 4 + 1 - 1 = (patternSize - 5) + 1 := by
        omega
      rw [hidx]
      simp only [List.getD_cons_succ]
      rw [HIP.chainNodes_getD dstPtr pattern patternSize size _ _ _
        (patternSize - 5) (by rw [List.length_range']; omega)]
      simp only [HIP.stepNode]
      omega

/-- Closed instance of the amended C3: the 8-byte fill on a fresh buffer
succeeds, emits 5 nodes, chains each subsequent node to exactly the node
before it (here node index 2 to node index 1), and returns sync point 4. -/
theorem claim_C3_witness :
    (HIP.enqueueCommandBufferFillHelper (HIP.mkCommandBuffer 0 0) 0
      [1, 2, 3, 4, 5, 6, 7, 8] 8 32 []).1 = UrResult.success ∧
    (HIP.newNodes (HIP.mkCommandBuffer 0 0)
      (HIP.enqueueCommandBufferFillHelper (HIP.mkCommandBuffer 0 0) 0
        [1, 2, 3, 4, 5, 6, 7, 8] 8 32 []).2.1).length = 8 - 3 ∧
    ((HIP.newNodes (HIP.mkCommandBuffer 0 0)
      (HIP.enqueueCommandBufferFillHelper (HIP.mkCommandBuffer 0 0) 0
        [1, 2, 3, 4, 5, 6, 7, 8] 8 32 []).2.1).getD 2 HIP.nodeD).deps =
      [((HIP.newNodes (HIP.mkCommandBuffer 0 0)
        (HIP.enqueueCommandBufferFillHelper (HIP.mkCommandBuffer 0 0) 0
          [1, 2, 3, 4, 5, 6, 7, 8] 8 32 []).2.1).getD 1 HIP.nodeD).id] ∧
    (HIP.enqueueCommandBufferFillHelper (HIP.mkCommandBuffer 0 0) 0
      [1, 2, 3, 4, 5, 6, 7, 8] 8 32 []).2.2 =
      some ((HIP.mkCommandBuffer 0 0).nextSyncPoint + (8 - 4)) := by
  have h := (claim_C3_amended_thm (HIP.mkCommandBuffer 0 0) 0
      [1, 2, 3, 4, 5, 6, 7, 8] 8 32 [] [] rfl).2 3
      (HIP.enqueueCommandBufferFillHelper (HIP.mkCommandBuffer 0 0) 0
        [1, 2, 3, 4, 5, 6, 7, 8] 8 32 []).1
      (HIP.enqueueCommandBufferFillHelper (HIP.mkCommandBuffer 0 0) 0
        [1, 2, 3, 4, 5, 6, 7, 8] 8 32 []).2.1
      (HIP.enqueueCommandBufferFillHelper (HIP.mkCommandBuffer 0 0) 0
        [1, 2, 3, 4, 5, 6, 7, 8] 8 32 []).2.2
      (by omega) rfl rfl
  exact ⟨h.1, h.2.1, h.2.2.2.1 1 (by decide), h.2.2.2.2.2.1⟩
